import Mathlib

/-!
Shallow embedding of `TVMTypeChecker.cpp` (TON-Solidity-Compiler,
`src/compiler/libsolidity/codegen/TVMTypeChecker.cpp`), the semantic-validation
pass that runs after ordinary type checking and before code generation.

Functions are identified by their source location, modelled as a `Nat`; an
environment `decls : Nat → FunctionDefinition` maps a location to the function
declared there.  Diagnostics are an inductive type with one constructor per
distinct `typeError` call site / message of the source; emitting a diagnostic is
modelled by appending it to a list, matching the append-only error reporter.
-/

namespace TVMChecker

/-- AST type categories used by the checker (`Type::Category` in the source).
Only the categories the checker inspects are distinguished; all others are
`Other`. -/
inductive TypeCategory
  | TvmSlice
  | TvmCell
  | Array
  | Struct
  | Magic
  | Function
  | Integer
  | Boolean
  | FixedBytes
  | Enum
  | Other
deriving DecidableEq, Repr

/-- Declared visibility of a function (`Visibility` in the source frontend). -/
inductive Visibility
  | publicV
  | externalV
  | internalV
  | privateV
deriving DecidableEq, Repr

/-- Source `Declaration::isPublic()`: public or external visibility. -/
def Visibility.isPublicVis : Visibility → Bool
  | .publicV => true
  | .externalV => true
  | _ => false

/-- The read-only view of a `FunctionDefinition` AST node used by the checker:
name, location (the identity of the node), visibility, the optional explicit
`functionID`, the role and marker flags, the recorded base functions of an
override (locations, from the upstream override resolution), and the parameter
and return parameter type categories. -/
structure FunctionDefinition where
  loc : Nat
  name : String
  visibility : Visibility
  functionID : Option Nat
  isConstructor : Bool
  isReceive : Bool
  isFallback : Bool
  isOnTickTock : Bool
  isOnBounce : Bool
  isResponsible : Bool
  internalMsg : Bool
  externalMsg : Bool
  isInline : Bool
  baseFunctions : List Nat
  paramCats : List TypeCategory
  returnCats : List TypeCategory
deriving DecidableEq, Repr

/-- Source accessor `f->isPublic()`. -/
def FunctionDefinition.isPublic (f : FunctionDefinition) : Bool :=
  f.visibility.isPublicVis

/-- One diagnostic per distinct `m_errorReporter.typeError` message of the
source, carrying the primary and (when present) secondary locations. -/
inductive Diag
  | sameFunctionID (loc otherLoc : Nat)
  | functionIDPresenceMismatch (loc baseLoc : Nat)
  | functionIDValueMismatch (loc baseLoc : Nat) (baseID : Nat)
  | responsibleMismatch (loc baseLoc : Nat)
  | msgFlagMismatch (loc baseLoc : Nat)
  | publicOverload (loc otherLoc : Nat)
  | upgradeHookReturn (loc : Nat)
  | upgradeHookVisibility (loc : Nat)
  | badStructKeyField (keyLoc memberLoc : Nat)
  | structKeyTooWide (keyLoc : Nat)
  | zeroFunctionID (loc : Nat)
  | functionIDBadVisibility (loc : Nat)
  | functionIDSpecialRole (loc : Nat)
  | inlinePublicFunction (loc : Nat)
  | sigCheckParams (loc : Nat)
  | sigCheckReturn (loc : Nat)
  | sigCheckVisibility (loc : Nat)
  | sigCheckInline (loc : Nat)
  | rangeAccessOnlyBytes (loc : Nat)
  | notSupportedVM (feature : String) (loc : Nat)
deriving DecidableEq, Repr

/-! Phase 1 of `checkOverrideAndOverload`: the hierarchy walk. -/

/-- Mutable state of `checkOverrideAndOverload` during the walk over the
reversed linearized base contracts: the `overridedFunctions` set, the
`functions` set (kept as the insertion sequence; the source keeps a
pointer-ordered `std::set`, an arbitrary order which the overload-phase
theorems quantify over), the `funcId2Decl` map (association list with unique
keys) and the diagnostics emitted so far. -/
structure CheckState where
  overridedFunctions : List Nat
  functions : List Nat
  funcId2Decl : List (Nat × Nat)
  diags : List Diag
deriving DecidableEq, Repr

/-- Lines 50–66 of the source: dispatch-id registration and collision
detection.  `allBase f` is `getAllBaseFunctions(f)` (defined outside this
repository slice in `TVMCommons`), the transitive set of base functions of
`f`, passed in as an oracle. -/
def registerFunctionID (allBase : Nat → List Nat) (decls : Nat → FunctionDefinition)
    (fLoc : Nat) (st : CheckState) : CheckState :=
  match (decls fLoc).functionID with
  | none => st
  | some id =>
    match st.funcId2Decl.lookup id with
    | some f2 =>
      if ((allBase fLoc).contains f2 = false) ∧ ((allBase f2).contains fLoc = false) then
        { st with diags := st.diags ++ [Diag.sameFunctionID fLoc f2] }
      else st
    | none => { st with funcId2Decl := st.funcId2Decl ++ [(id, fLoc)] }

/-- The condition of lines 78 and 100 of the source (it appears twice,
verbatim): exactly one of override and base declares a `functionID`. -/
def presenceMismatch (f b : FunctionDefinition) : Bool :=
  (!f.functionID.isSome && b.functionID.isSome) ||
    (f.functionID.isSome && !b.functionID.isSome)

/-- Lines 78–116 of the source: the diagnostics emitted for one
(override, base) pair, in emission order.  Note that the presence-mismatch
check appears twice (lines 78–83 and again, verbatim, lines 100–107), and that
the internal-message and external-message comparisons share a single `if`
(line 109) and a single diagnostic. -/
def overrideDiags (decls : Nat → FunctionDefinition) (fLoc bLoc : Nat) : List Diag :=
  let f := decls fLoc
  let b := decls bLoc
  (if presenceMismatch f b then [Diag.functionIDPresenceMismatch fLoc bLoc]
   else if f.functionID.isSome && (f.functionID ≠ b.functionID) then
     [Diag.functionIDValueMismatch fLoc bLoc (b.functionID.getD 0)]
   else [])
  ++ (if b.isResponsible ≠ f.isResponsible then [Diag.responsibleMismatch fLoc bLoc] else [])
  ++ (if presenceMismatch f b then [Diag.functionIDPresenceMismatch fLoc bLoc] else [])
  ++ (if Bool.xor f.internalMsg b.internalMsg || Bool.xor f.externalMsg b.externalMsg then
        [Diag.msgFlagMismatch fLoc bLoc]
      else [])

/-- Lines 48–120 of the source: the body of the inner walk loop for one
defined function `fLoc`: first dispatch-id registration (no role exemption),
then `continue` for constructor/receive/fallback/onTickTock, then the
override-consistency checks and the set insertions. -/
def processFunction (allBase : Nat → List Nat) (decls : Nat → FunctionDefinition)
    (st : CheckState) (fLoc : Nat) : CheckState :=
  let st1 := registerFunctionID allBase decls fLoc st
  let f := decls fLoc
  if f.isConstructor || f.isReceive || f.isFallback || f.isOnTickTock then st1
  else
    let st2 :=
      if f.baseFunctions ≠ [] then
        { st1 with
          overridedFunctions := st1.overridedFunctions ++ fLoc :: f.baseFunctions,
          diags := st1.diags ++ (f.baseFunctions.map (overrideDiags decls fLoc)).flatten }
      else st1
    { st2 with functions := st2.functions ++ [fLoc] }

/-- Lines 47–121 of the source: the walk over
`linearizedBaseContracts | reversed`; `contractsRev` is the reversed
linearization, each contract given by the locations of its defined
functions. -/
def hierarchyWalk (allBase : Nat → List Nat) (decls : Nat → FunctionDefinition)
    (contractsRev : List (List Nat)) : CheckState :=
  contractsRev.foldl (fun st fs => fs.foldl (processFunction allBase decls) st)
    ⟨[], [], [], []⟩

/-! Phase 2 of `checkOverrideAndOverload`: the public-overload check. -/

/-- State of the overload loop, lines 124–151: the symmetric `used` pair set
and the diagnostics emitted. -/
structure OvlState where
  used : List (Nat × Nat)
  diags : List Diag
deriving DecidableEq, Repr

/-- Lines 132–150 of the source: the body of the inner loop, for outer
function `f` and inner function `ff`. -/
def overloadInner (decls : Nat → FunctionDefinition) (ovr : List Nat) (f : Nat)
    (st : OvlState) (ff : Nat) : OvlState :=
  if !(decls ff).isPublic then st
  else if ovr.contains ff || f == ff then st
  else if (decls f).name == (decls ff).name then
    if st.used.contains (f, ff) then st
    else { used := st.used ++ [(f, ff), (ff, f)],
           diags := st.diags ++ [Diag.publicOverload f ff] }
  else st

/-- Lines 125–151 of the source: the body of the outer loop for function
`f`. -/
def overloadOuter (decls : Nat → FunctionDefinition) (ovr : List Nat) (fns : List Nat)
    (st : OvlState) (f : Nat) : OvlState :=
  if !(decls f).isPublic then st
  else if ovr.contains f then st
  else fns.foldl (overloadInner decls ovr f) st

/-- Lines 124–151 of the source: the whole overload phase, over the
`functions` sequence `fns` collected by the walk and the collected
`overridedFunctions` set `ovr`. -/
def overloadPhase (decls : Nat → FunctionDefinition) (ovr : List Nat)
    (fns : List Nat) : OvlState :=
  fns.foldl (overloadOuter decls ovr fns) ⟨[], []⟩

/-- Function `TVMTypeChecker::checkOverrideAndOverload`, lines 43–152: the walk followed
by the overload phase, all diagnostics in emission order. -/
def checkOverrideAndOverload (allBase : Nat → List Nat)
    (decls : Nat → FunctionDefinition) (contractsRev : List (List Nat)) : List Diag :=
  let st := hierarchyWalk allBase decls contractsRev
  st.diags ++ (overloadPhase decls st.overridedFunctions st.functions).diags

/-! Hook shape checks: `check_onCodeUpgrade` and `visit(FunctionDefinition)`. -/

/-- Lines 154–162 of the source: the shape checks for the `onCodeUpgrade`
hook; the return-parameter check and the visibility check are two independent
`if`s. -/
def check_onCodeUpgrade (f : FunctionDefinition) : List Diag :=
  (if f.returnCats ≠ [] then [Diag.upgradeHookReturn f.loc] else [])
  ++ (if f.isPublic then [Diag.upgradeHookVisibility f.loc] else [])

/-- Lines 217–237 of the source: the shape checks for the
`afterSignatureCheck` hook. -/
def checkAfterSignatureCheck (f : FunctionDefinition) : List Diag :=
  (if f.paramCats.length ≠ 2 ∨ f.paramCats.getD 0 .Other ≠ .TvmSlice ∨
      f.paramCats.getD 1 .Other ≠ .TvmCell then
     [Diag.sigCheckParams f.loc]
   else [])
  ++ (if f.returnCats.length ≠ 1 ∨ f.returnCats.getD 0 .Other ≠ .TvmSlice then
        [Diag.sigCheckReturn f.loc]
      else [])
  ++ (if f.visibility ≠ .privateV then [Diag.sigCheckVisibility f.loc] else [])
  ++ (if !f.isInline then [Diag.sigCheckInline f.loc] else [])

/-- Function `TVMTypeChecker::visit(FunctionDefinition)`, lines 199–240 of the source:
every check is an independent `if`; the visit always continues traversal, so
only the emitted diagnostics matter. -/
def visitFunctionDefinition (f : FunctionDefinition) : List Diag :=
  (if f.functionID = some 0 then [Diag.zeroFunctionID f.loc] else [])
  ++ (if f.functionID.isSome && (!f.isPublic && f.name ≠ "onCodeUpgrade") then
        [Diag.functionIDBadVisibility f.loc]
      else [])
  ++ (if f.functionID.isSome && (f.isReceive || f.isFallback || f.isOnTickTock || f.isOnBounce) then
        [Diag.functionIDSpecialRole f.loc]
      else [])
  ++ (if f.isInline && f.isPublic then [Diag.inlinePublicFunction f.loc] else [])
  ++ (if f.name = "onCodeUpgrade" then check_onCodeUpgrade f else [])
  ++ (if f.name = "afterSignatureCheck" then checkAfterSignatureCheck f else [])

/-! Struct mapping-key layout: `visit(Mapping)`. -/

/-- Constant `TvmConst::CellBitLength`. Modelled from the spec: the constant lives in
`TVMConstants.hpp`, outside this repository slice; the spec fixes the maximum
cell bit capacity at 1023 bits. -/
def CellBitLength : Nat := 1023

/-- One member of the struct used as a mapping key, as seen through
`TypeInfo` (defined in `TVMCommons`, outside this repository slice): whether
its category is numeric-like and how many bits it occupies, plus its
location. -/
structure StructField where
  isNumeric : Bool
  numBits : Nat
  loc : Nat
deriving DecidableEq, Repr

/-- Lines 177–189 of the source: the body of the member loop of
`visit(Mapping)`: a category diagnostic when the member is not numeric-like,
and unconditional accumulation of the member's bit width. -/
def mappingStep (keyLoc : Nat) (acc : Nat × List Diag) (m : StructField) :
    Nat × List Diag :=
  (acc.1 + m.numBits,
   acc.2 ++ (if !m.isNumeric then [Diag.badStructKeyField keyLoc m.loc] else []))

/-- Function `TVMTypeChecker::visit(Mapping)`, lines 171–197 of the source, for a
mapping whose key type is a user-defined type name (`keyIsStruct` tells
whether its category is `Struct`); the member loop is `mappingStep` folded
over the struct's members. -/
def visitMapping (keyLoc : Nat) (keyIsStruct : Bool) (fields : List StructField) :
    List Diag :=
  if keyIsStruct then
    let r := fields.foldl (mappingStep keyLoc) (0, [])
    r.2 ++ (if r.1 > CellBitLength then [Diag.structKeyTooWide keyLoc] else [])
  else []

/-! Index-range access: `visit(IndexRangeAccess)`. -/

/-- The static type of the base expression of an index-range access: its
category, and — meaningful only when the category is `Array` — whether the
array is a byte array or string. -/
structure BaseTypeInfo where
  category : TypeCategory
  isByteArrayOrString : Bool
deriving DecidableEq, Repr

/-- Cast `to<ArrayType>(baseType)`, line 244 of the source: the array-type view of
the base type, null (`none`) when the category is not `Array`. -/
def toArrayType (t : BaseTypeInfo) : Option BaseTypeInfo :=
  if t.category = .Array then some t else none

/-- Function `TVMTypeChecker::visit(IndexRangeAccess)`, lines 242–249 of the source.
The result is `none` exactly when the C++ would dereference a null
`ArrayType*`; otherwise `some (diags, b)` where `b` is the returned
continue-traversal flag.  The `||` of line 245 short-circuits: the null view
is consulted only when the first disjunct is false. -/
def visitIndexRangeAccess (t : BaseTypeInfo) (loc : Nat) : Option (List Diag × Bool) :=
  let baseArrayType := toArrayType t
  if t.category ≠ .Array then some ([Diag.rangeAccessOnlyBytes loc], true)
  else
    match baseArrayType with
    | none => none
    | some a =>
      if !a.isByteArrayOrString then some ([Diag.rangeAccessOnlyBytes loc], true)
      else some ([], true)

/-! Version-gated features: `visit(FunctionCall)`, `visit(PragmaDirective)`,
`visit(MemberAccess)` -/

/-- The configured target VM version (`GlobalParams::g_tvmVersion`).
Modelled from the spec: `TVMVersion` lives in `TVM.hpp`, outside this
repository slice; the versions are the TON base version and the two
extensions. -/
inductive TVMVersion
  | ton
  | ever
  | gosh
deriving DecidableEq, Repr

/-- The built-in function kinds the checker switches on
(`FunctionType::Kind`); all others are `otherKind`. -/
inductive FunctionKind
  | TVMInitCodeHash
  | TVMCode
  | otherKind
deriving DecidableEq, Repr

/-- The view of a `FunctionCall` node used by the checker: the category of the
callee expression's type, the callee's function kind (meaningful when the
category is `Function`), and the await flag. -/
structure FunctionCallNode where
  calleeCategory : TypeCategory
  calleeKind : FunctionKind
  isAwait : Bool
  loc : Nat
deriving DecidableEq, Repr

/-- Function `TVMTypeChecker::visit(FunctionCall)`, lines 251–285 of the source. -/
def visitFunctionCall (ver : TVMVersion) (fc : FunctionCallNode) : List Diag :=
  (match fc.calleeCategory with
   | .Function =>
     (match fc.calleeKind with
      | .TVMInitCodeHash =>
        if ver = .ton then [Diag.notSupportedVM "tvm.initCodeHash()" fc.loc] else []
      | .TVMCode =>
        if ver = .ton then [Diag.notSupportedVM "tvm.code()" fc.loc] else []
      | .otherKind => [])
   | _ => [])
  ++ (if fc.isAwait && (ver = .ton : Bool) then [Diag.notSupportedVM "*.await" fc.loc] else [])

/-- Function `TVMTypeChecker::visit(PragmaDirective)`, lines 287–295 of the source. -/
def visitPragma (ver : TVMVersion) (literals : List String) (loc : Nat) : List Diag :=
  match literals with
  | [] => []
  | l :: _ =>
    if l = "copyleft" ∧ ver = .ton then [Diag.notSupportedVM "pragma copyleft ..." loc] else []

/-- The view of a `MemberAccess` node used by the checker: the member name,
the category of the receiver expression's type, and — when the receiver is an
`Identifier` — its name. -/
structure MemberAccessNode where
  memberName : String
  exprCategory : TypeCategory
  exprIdent : Option String
  loc : Nat
deriving DecidableEq, Repr

/-- Function `TVMTypeChecker::visit(MemberAccess)`, lines 297–320 of the source. -/
def visitMemberAccess (ver : TVMVersion) (ma : MemberAccessNode) : List Diag :=
  match ma.exprCategory with
  | .Magic =>
    (if ma.memberName = "storageFee" ∧ ver = .ton then
       [Diag.notSupportedVM "tx.storageFee" ma.loc]
     else [])
    ++ (match ma.exprIdent with
        | some n =>
          if n = "gosh" ∧ ver ≠ .gosh then
            [Diag.notSupportedVM ("gosh." ++ ma.memberName) ma.loc]
          else []
        | none => [])
  | _ => []

/-! Spec-side model of the version-gated features.

The feature table below is written from the words of the specification
(section "Version-Gated Feature Validator"), not from the source, and is to be
compared with the source-derived `visit` functions above. -/

/-- Modelled from the spec: the feature tokens gated by target version. -/
inductive Feature
  | initCodeHash
  | codeAccessor
  | awaitExpr
  | copyleftPragma
  | storageFeeMember
  | goshNamespace
deriving DecidableEq, Repr

/-- Modelled from the spec: the set of target-version identifiers supporting
each feature.  The five base-gated features are unavailable only on the
original TON version; the gosh vendor namespace is available only on the
gosh version. -/
def supportedVersions : Feature → List TVMVersion
  | .goshNamespace => [.gosh]
  | _ => [.ever, .gosh]

/-- The feature name as it appears in the diagnostic text (for the gosh
namespace, the member name is appended). -/
def featureText : Feature → String
  | .initCodeHash => "tvm.initCodeHash()"
  | .codeAccessor => "tvm.code()"
  | .awaitExpr => "*.await"
  | .copyleftPragma => "pragma copyleft ..."
  | .storageFeeMember => "tx.storageFee"
  | .goshNamespace => "gosh."

/-- Modelled from the spec: a call expression is gated when its callee is one
of the fixed built-in kinds, and independently when it is an await
expression; a diagnostic is emitted iff the configured version is not in the
feature's supported set. -/
def specGateFunctionCall (ver : TVMVersion) (fc : FunctionCallNode) : List Diag :=
  (if fc.calleeCategory = .Function ∧ fc.calleeKind = .TVMInitCodeHash ∧
      ver ∉ supportedVersions .initCodeHash then
     [Diag.notSupportedVM (featureText .initCodeHash) fc.loc]
   else [])
  ++ (if fc.calleeCategory = .Function ∧ fc.calleeKind = .TVMCode ∧
        ver ∉ supportedVersions .codeAccessor then
        [Diag.notSupportedVM (featureText .codeAccessor) fc.loc]
      else [])
  ++ (if fc.isAwait = true ∧ ver ∉ supportedVersions .awaitExpr then
        [Diag.notSupportedVM (featureText .awaitExpr) fc.loc]
      else [])

/-- Modelled from the spec: a pragma directive whose first token is the
reserved word is gated; anything else is a no-op. -/
def specGatePragma (ver : TVMVersion) (literals : List String) (loc : Nat) : List Diag :=
  if literals.headD "" = "copyleft" ∧ ver ∉ supportedVersions .copyleftPragma then
    [Diag.notSupportedVM (featureText .copyleftPragma) loc]
  else []

/-- Modelled from the spec: a member access on a magic value is gated when the
member is the storage-fee name, and independently when the receiver is the
gosh vendor-namespace identifier (any member); a diagnostic is emitted iff the
configured version is not in the feature's supported set. -/
def specGateMemberAccess (ver : TVMVersion) (ma : MemberAccessNode) : List Diag :=
  (if ma.exprCategory = .Magic ∧ ma.memberName = "storageFee" ∧
      ver ∉ supportedVersions .storageFeeMember then
     [Diag.notSupportedVM (featureText .storageFeeMember) ma.loc]
   else [])
  ++ (if ma.exprCategory = .Magic ∧ ma.exprIdent = some "gosh" ∧
        ver ∉ supportedVersions .goshNamespace then
        [Diag.notSupportedVM (featureText .goshNamespace ++ ma.memberName) ma.loc]
      else [])

/-! Counting helpers and the pair invariant of the overload phase. -/

/-- The number of overload diagnostics attributed to the unordered pair of
functions at `a` and `b`, in either orientation. -/
def pairDiagCount (a b : Nat) (l : List Diag) : Nat :=
  (l.filter (fun d =>
    d == Diag.publicOverload a b || d == Diag.publicOverload b a)).length

/-- Invariant of the overload phase for a fixed unordered pair of locations:
`used` holds the pair symmetrically, and the diagnostics so far contain
exactly one entry for the pair iff the pair is in `used`. -/
def PairInv (a b : Nat) (st : OvlState) : Prop :=
  ((a, b) ∈ st.used ↔ (b, a) ∈ st.used) ∧
  pairDiagCount a b st.diags = (if (a, b) ∈ st.used then 1 else 0)

/-! Concrete instances used as witnesses and counterexamples. -/

/-- A plain public function with no explicit id and no special roles, at
location `loc`. -/
def mkFun (loc : Nat) : FunctionDefinition :=
  { loc := loc, name := "f", visibility := .publicV, functionID := none,
    isConstructor := false, isReceive := false, isFallback := false,
    isOnTickTock := false, isOnBounce := false, isResponsible := false,
    internalMsg := false, externalMsg := false, isInline := false,
    baseFunctions := [], paramCats := [], returnCats := [] }

/-- An override at location 0 marked `internalMsg` and `externalMsg`, whose
base at location 1 carries neither flag: both flags mismatch. -/
def declsBothFlags : Nat → FunctionDefinition := fun l =>
  if l = 0 then { mkFun 0 with internalMsg := true, externalMsg := true, baseFunctions := [1] }
  else mkFun 1

/-- An override at location 0 with no explicit id whose base at location 1
declares id 10: a presence mismatch. -/
def declsPresence : Nat → FunctionDefinition := fun l =>
  if l = 0 then { mkFun 0 with baseFunctions := [1] }
  else { mkFun 1 with functionID := some 10 }

/-- An override at location 0 with id 11 whose base at location 1 declares
id 10: a value mismatch. -/
def declsValue : Nat → FunctionDefinition := fun l =>
  if l = 0 then { mkFun 0 with functionID := some 11, baseFunctions := [1] }
  else { mkFun 1 with functionID := some 10 }

/-- A receive function at location 5 declaring id 7 (special role, no
exemption), and a function at location 3 also declaring id 7. -/
def declsCollision : Nat → FunctionDefinition := fun l =>
  if l = 5 then { mkFun 5 with functionID := some 7, isReceive := true }
  else { mkFun 3 with functionID := some 7 }

/-- An empty transitive-base oracle: no function overrides any other. -/
def noBase : Nat → List Nat := fun _ => []

/-- Two distinct public functions, both named "f", at locations 0 and 1. -/
def declsOverload : Nat → FunctionDefinition := fun l =>
  if l = 0 then mkFun 0 else mkFun 1

/-- A receive function with private visibility declaring id 0. -/
def zeroIdFun : FunctionDefinition :=
  { mkFun 4 with visibility := .privateV, functionID := some 0, isReceive := true }

/-- An `onCodeUpgrade` hook that is public and returns a value: both shape
violations at once. -/
def badUpgradeHook : FunctionDefinition :=
  { mkFun 6 with name := "onCodeUpgrade", returnCats := [.TvmSlice] }

/-- A public function marked inline. -/
def inlinePublicFun : FunctionDefinition :=
  { mkFun 8 with isInline := true }

/-! Theorems. -/

/-- The accumulated bit width of the member fold is the sum of the members'
bit widths, independently of the `isNumeric` flags. -/
theorem mappingFold_fst (keyLoc : Nat) (fields : List StructField) (b : Nat)
    (ds : List Diag) :
    (fields.foldl (mappingStep keyLoc) (b, ds)).1 =
      b + (fields.map StructField.numBits).sum := by
  induction fields generalizing b ds with
  | nil => simp
  | cons m ms ih =>
    simp only [List.foldl_cons, mappingStep, List.map_cons, List.sum_cons]
    rw [ih]
    omega

/-- The member fold never emits the aggregate width diagnostic. -/
theorem mappingFold_tooWide_count (keyLoc : Nat) (fields : List StructField)
    (b : Nat) (ds : List Diag) :
    ((fields.foldl (mappingStep keyLoc) (b, ds)).2).count (Diag.structKeyTooWide keyLoc) =
      ds.count (Diag.structKeyTooWide keyLoc) := by
  induction fields generalizing b ds with
  | nil => simp
  | cons m ms ih =>
    simp only [List.foldl_cons, mappingStep]
    rw [ih]
    by_cases h : m.isNumeric <;> simp [h, List.count_append]

/-- C5: for a mapping keyed by a user-defined struct, the aggregate width
diagnostic is emitted exactly once when the sum of the members' bit widths
exceeds `CellBitLength` and not at all when it equals (or is below) it; the
width accumulation is independent of the numeric-category failures of
individual members. -/
theorem struct_key_width_diag (keyLoc : Nat) (fields : List StructField) :
    (visitMapping keyLoc true fields).count (Diag.structKeyTooWide keyLoc) =
      if (fields.map StructField.numBits).sum > CellBitLength then 1 else 0 := by
  have hv : visitMapping keyLoc true fields =
      (fields.foldl (mappingStep keyLoc) (0, [])).2 ++
        (if (fields.foldl (mappingStep keyLoc) (0, [])).1 > CellBitLength then
           [Diag.structKeyTooWide keyLoc] else []) := rfl
  rw [hv, List.count_append, mappingFold_tooWide_count, mappingFold_fst]
  simp only [Nat.zero_add, List.count_nil]
  by_cases h : (fields.map StructField.numBits).sum > CellBitLength <;> simp [h]

/-- A one-diagnostic gate contributes nothing to the count of a different
diagnostic. -/
theorem count_gate (p : Prop) [Decidable p] (d x : Diag) (h : ¬ d = x) :
    (if p then [d] else []).count x = 0 := by
  split_ifs <;> simp [List.count_cons, h]

/-- A two-branch gate contributes nothing to the count of a third
diagnostic. -/
theorem count_gate2 (p q : Prop) [Decidable p] [Decidable q] (d d' x : Diag)
    (h : ¬ d = x) (h' : ¬ d' = x) :
    (if p then [d] else if q then [d'] else []).count x = 0 := by
  split_ifs <;> simp [List.count_cons, h, h']

/-- The msg-flag chunk of `overrideDiags` contributes one shared diagnostic
when either flag mismatches, and the other chunks never contribute it. -/
theorem overrideDiags_msgFlag_count (decls : Nat → FunctionDefinition) (fLoc bLoc : Nat) :
    (overrideDiags decls fLoc bLoc).count (Diag.msgFlagMismatch fLoc bLoc) =
      if Bool.xor (decls fLoc).internalMsg (decls bLoc).internalMsg ||
         Bool.xor (decls fLoc).externalMsg (decls bLoc).externalMsg then 1 else 0 := by
  unfold overrideDiags
  rw [List.count_append, List.count_append, List.count_append,
    count_gate2 _ _ _ _ _ (by simp) (by simp), count_gate _ _ _ (by simp),
    count_gate _ _ _ (by simp)]
  split_ifs <;> simp

/-- C1 (amended): the internal-message and external-message comparisons are
combined in one check with one shared diagnostic: a mismatch in either flag
(or in both) yields exactly one `msgFlagMismatch` diagnostic for the
(override, base) pair, never two. -/
theorem msgFlag_mismatch_single_diag (decls : Nat → FunctionDefinition)
    (fLoc bLoc : Nat) :
    (overrideDiags decls fLoc bLoc).count (Diag.msgFlagMismatch fLoc bLoc) =
      if (decls fLoc).internalMsg ≠ (decls bLoc).internalMsg ∨
         (decls fLoc).externalMsg ≠ (decls bLoc).externalMsg then 1 else 0 := by
  rw [overrideDiags_msgFlag_count]
  cases h1 : (decls fLoc).internalMsg <;> cases h2 : (decls bLoc).internalMsg <;>
    cases h3 : (decls fLoc).externalMsg <;> cases h4 : (decls bLoc).externalMsg <;>
    simp [h1, h2, h3, h4]

/-- C1 (counterexample): an override/base pair mismatching in both the
internal-message and the external-message flag yields one diagnostic, not the
two the claim requires. -/
theorem msgFlag_both_mismatch_one_diag :
    (declsBothFlags 0).internalMsg ≠ (declsBothFlags 1).internalMsg ∧
    (declsBothFlags 0).externalMsg ≠ (declsBothFlags 1).externalMsg ∧
    (overrideDiags declsBothFlags 0 1).count (Diag.msgFlagMismatch 0 1) = 1 ∧
    (overrideDiags declsBothFlags 0 1).count (Diag.msgFlagMismatch 0 1) ≠ 2 := by
  decide

/-- C2: on a pair where only the base declares a dispatch id, the source emits
the presence-mismatch diagnostic twice (the check of lines 78–83 is repeated
verbatim at lines 100–107), not once as the claim states; on a pair where
both declare different ids, the distinct value-mismatch diagnostic is emitted
exactly once and the presence-mismatch one not at all. -/
theorem presence_mismatch_emitted_twice :
    (declsPresence 0).functionID = none ∧
    (declsPresence 1).functionID = some 10 ∧
    (overrideDiags declsPresence 0 1).count (Diag.functionIDPresenceMismatch 0 1) = 2 ∧
    (overrideDiags declsValue 0 1).count (Diag.functionIDPresenceMismatch 0 1) = 0 ∧
    (overrideDiags declsValue 0 1).count (Diag.functionIDValueMismatch 0 1 10) = 1 := by
  decide

/-- C6: a function declaring explicit dispatch id 0 always receives the
reserved-id diagnostic, whatever its visibility and role flags. -/
theorem zero_functionID_diag (f : FunctionDefinition) (h : f.functionID = some 0) :
    Diag.zeroFunctionID f.loc ∈ visitFunctionDefinition f := by
  unfold visitFunctionDefinition
  simp [h]

/-- Witness for C6 at a private receive function with id 0. -/
theorem zero_functionID_diag_witness :
    zeroIdFun.functionID = some 0 ∧
    Diag.zeroFunctionID 4 ∈ visitFunctionDefinition zeroIdFun :=
  ⟨rfl, zero_functionID_diag zeroIdFun rfl⟩

/-- C8: for a function named `onCodeUpgrade`, the non-empty-return check and
the public-visibility check are independent: each violation yields its own
diagnostic, and a hook violating both yields exactly the two diagnostics. -/
theorem onCodeUpgrade_independent_checks (f : FunctionDefinition)
    (hname : f.name = "onCodeUpgrade") :
    (f.returnCats ≠ [] → Diag.upgradeHookReturn f.loc ∈ visitFunctionDefinition f) ∧
    (f.isPublic = true → Diag.upgradeHookVisibility f.loc ∈ visitFunctionDefinition f) ∧
    (f.returnCats ≠ [] → f.isPublic = true →
      check_onCodeUpgrade f =
        [Diag.upgradeHookReturn f.loc, Diag.upgradeHookVisibility f.loc]) := by
  refine ⟨?_, ?_, ?_⟩
  · intro hr
    unfold visitFunctionDefinition check_onCodeUpgrade
    simp [hname, hr]
  · intro hp
    unfold visitFunctionDefinition check_onCodeUpgrade
    simp [hname, hp]
  · intro hr hp
    unfold check_onCodeUpgrade
    simp [hr, hp]

/-- Witness for C8 at a public `onCodeUpgrade` hook returning a slice. -/
theorem onCodeUpgrade_independent_checks_witness :
    Diag.upgradeHookReturn 6 ∈ visitFunctionDefinition badUpgradeHook ∧
    Diag.upgradeHookVisibility 6 ∈ visitFunctionDefinition badUpgradeHook ∧
    check_onCodeUpgrade badUpgradeHook =
      [Diag.upgradeHookReturn 6, Diag.upgradeHookVisibility 6] := by
  have h := onCodeUpgrade_independent_checks badUpgradeHook rfl
  exact ⟨h.1 (by decide), h.2.1 rfl, h.2.2 (by decide) rfl⟩

/-- C9: a function marked inline with public visibility receives the
inline-visibility diagnostic. -/
theorem inline_public_diag (f : FunctionDefinition) (hi : f.isInline = true)
    (hp : f.isPublic = true) :
    Diag.inlinePublicFunction f.loc ∈ visitFunctionDefinition f := by
  unfold visitFunctionDefinition
  simp [hi, hp]

/-- Witness for C9 at a public inline function. -/
theorem inline_public_diag_witness :
    inlinePublicFun.isInline = true ∧
    Diag.inlinePublicFunction 8 ∈ visitFunctionDefinition inlinePublicFun :=
  ⟨rfl, inline_public_diag inlinePublicFun rfl rfl⟩

/-- C10: the index-range-access check is total: for every base type it
evaluates without dereferencing the null array view (the result is `some`),
emits the "only for bytes" diagnostic exactly when the base is not a
byte-array, and always returns continue-traversal. -/
theorem index_range_access_total (t : BaseTypeInfo) (loc : Nat) :
    visitIndexRangeAccess t loc =
      some ((if t.category ≠ .Array ∨ t.isByteArrayOrString = false then
               [Diag.rangeAccessOnlyBytes loc] else []), true) := by
  unfold visitIndexRangeAccess toArrayType
  by_cases hc : t.category = .Array <;> by_cases hb : t.isByteArrayOrString <;>
    simp [hc, hb]

/-- C7: the three version-gated visit functions coincide with the spec-side
feature table: for each gated node shape (built-in accessor calls, await
expressions, the copyleft pragma, the storage-fee member on a magic value,
any member on the gosh namespace) the diagnostic naming the feature is
emitted iff the configured target version is not in the feature's supported
set, and every unmatched node shape emits nothing. -/
theorem version_gate_refines_spec (ver : TVMVersion) (fc : FunctionCallNode)
    (lits : List String) (ploc : Nat) (ma : MemberAccessNode) :
    visitFunctionCall ver fc = specGateFunctionCall ver fc ∧
    visitPragma ver lits ploc = specGatePragma ver lits ploc ∧
    visitMemberAccess ver ma = specGateMemberAccess ver ma := by
  refine ⟨?_, ?_, ?_⟩
  · obtain ⟨cat, kind, aw, loc⟩ := fc
    cases ver <;> cases cat <;> cases kind <;> cases aw <;>
      simp [visitFunctionCall, specGateFunctionCall, supportedVersions, featureText]
  · cases lits with
    | nil => cases ver <;> simp [visitPragma, specGatePragma, supportedVersions]
    | cons l ls =>
      cases ver <;>
        simp [visitPragma, specGatePragma, supportedVersions, featureText]
  · obtain ⟨mem, cat, ident, loc⟩ := ma
    cases cat <;> cases ident <;> cases ver <;>
      simp_all [visitMemberAccess, specGateMemberAccess, supportedVersions, featureText]

/-- Step `processFunction` never changes the registry after the registration step:
the override-consistency part only appends diagnostics and set entries. -/
theorem processFunction_funcId2Decl (allBase : Nat → List Nat)
    (decls : Nat → FunctionDefinition) (st : CheckState) (fLoc : Nat) :
    (processFunction allBase decls st fLoc).funcId2Decl =
      (registerFunctionID allBase decls fLoc st).funcId2Decl := by
  unfold processFunction
  simp only []
  split
  · rfl
  · split <;> rfl

/-- Diagnostics present after the registration step survive the rest of
`processFunction`. -/
theorem processFunction_diags_mono (allBase : Nat → List Nat)
    (decls : Nat → FunctionDefinition) (st : CheckState) (fLoc : Nat) (d : Diag)
    (h : d ∈ (registerFunctionID allBase decls fLoc st).diags) :
    d ∈ (processFunction allBase decls st fLoc).diags := by
  unfold processFunction
  simp only []
  split
  · exact h
  · split <;> simp [List.mem_append, h]

/-- C3: at every step of the hierarchy walk — the registration runs before
the constructor/receive/fallback/on-tick-tock exemption, so for every
function declaring an explicit id whatever its role — an unregistered id gets
registered to the function, and an id registered to another function with no
transitive override relation in either direction yields the shared-id
diagnostic citing both locations. -/
theorem functionID_walk_step (allBase : Nat → List Nat)
    (decls : Nat → FunctionDefinition) (st : CheckState) (fLoc id : Nat)
    (hid : (decls fLoc).functionID = some id) :
    (st.funcId2Decl.lookup id = none →
       (processFunction allBase decls st fLoc).funcId2Decl =
         st.funcId2Decl ++ [(id, fLoc)]) ∧
    (∀ f2, st.funcId2Decl.lookup id = some f2 →
       (allBase fLoc).contains f2 = false → (allBase f2).contains fLoc = false →
       Diag.sameFunctionID fLoc f2 ∈ (processFunction allBase decls st fLoc).diags) := by
  constructor
  · intro hnone
    rw [processFunction_funcId2Decl]
    simp [registerFunctionID, hid, hnone]
  · intro f2 hsome h1 h2
    apply processFunction_diags_mono
    simp at h1 h2
    simp [registerFunctionID, hid, hsome, h1, h2]

/-- Witness for C3: a receive function at location 5 with id 7 is registered
into an empty registry, and collides with the unrelated function at location
3 when the registry already binds id 7 there. -/
theorem functionID_walk_step_witness :
    (processFunction noBase declsCollision ⟨[], [], [], []⟩ 5).funcId2Decl = [(7, 5)] ∧
    Diag.sameFunctionID 5 3 ∈
      (processFunction noBase declsCollision ⟨[], [], [(7, 3)], []⟩ 5).diags := by
  constructor
  · have h := (functionID_walk_step noBase declsCollision ⟨[], [], [], []⟩ 5 7 rfl).1 rfl
    simpa using h
  · exact (functionID_walk_step noBase declsCollision ⟨[], [], [(7, 3)], []⟩ 5 7 rfl).2
      3 rfl rfl rfl

/-- Count `pairDiagCount` distributes over append. -/
theorem pairDiagCount_append (a b : Nat) (l l' : List Diag) :
    pairDiagCount a b (l ++ l') = pairDiagCount a b l + pairDiagCount a b l' := by
  simp [pairDiagCount, List.filter_append]

/-- One inner overload step preserves the pair invariant. -/
theorem pairInv_inner (decls : Nat → FunctionDefinition) (ovr : List Nat)
    (f ff a b : Nat) (hab : a ≠ b) (st : OvlState) (h : PairInv a b st) :
    PairInv a b (overloadInner decls ovr f st ff) := by
  obtain ⟨hsym, hcount⟩ := h
  unfold overloadInner
  split_ifs with hc1 hc2 hc3 hc4
  · exact ⟨hsym, hcount⟩
  · exact ⟨hsym, hcount⟩
  · exact ⟨hsym, hcount⟩
  · have hnotused : (f, ff) ∉ st.used := by simpa using hc4
    by_cases hM1 : f = a ∧ ff = b
    · obtain ⟨rfl, rfl⟩ := hM1
      constructor
      · simp [List.mem_append]
      · rw [pairDiagCount_append, hcount, if_neg hnotused]
        simp [pairDiagCount, List.mem_append]
    · by_cases hM2 : f = b ∧ ff = a
      · obtain ⟨rfl, rfl⟩ := hM2
        have hnb : (ff, f) ∉ st.used := fun hx => hnotused (hsym.mp hx)
        constructor
        · simp [List.mem_append]
        · rw [pairDiagCount_append, hcount, if_neg hnb]
          simp [pairDiagCount, List.mem_append]
      · have hne1 : (a, b) ≠ (f, ff) := fun hEq =>
          hM1 ⟨(congrArg Prod.fst hEq).symm, (congrArg Prod.snd hEq).symm⟩
        have hne2 : (a, b) ≠ (ff, f) := fun hEq =>
          hM2 ⟨(congrArg Prod.snd hEq).symm, (congrArg Prod.fst hEq).symm⟩
        have hne3 : (b, a) ≠ (f, ff) := fun hEq =>
          hM2 ⟨(congrArg Prod.fst hEq).symm, (congrArg Prod.snd hEq).symm⟩
        have hne4 : (b, a) ≠ (ff, f) := fun hEq =>
          hM1 ⟨(congrArg Prod.snd hEq).symm, (congrArg Prod.fst hEq).symm⟩
        constructor
        · simp [List.mem_append, hne1, hne2, hne3, hne4, hsym]
        · rw [pairDiagCount_append]
          have hz : pairDiagCount a b [Diag.publicOverload f ff] = 0 := by
            simp [pairDiagCount, hM1, hM2]
          rw [hz, Nat.add_zero, hcount]
          simp [List.mem_append, hne1, hne2]
  · exact ⟨hsym, hcount⟩

/-- The inner overload fold preserves the pair invariant. -/
theorem pairInv_inner_fold (decls : Nat → FunctionDefinition) (ovr : List Nat)
    (f a b : Nat) (hab : a ≠ b) (l : List Nat) (st : OvlState) (h : PairInv a b st) :
    PairInv a b (l.foldl (overloadInner decls ovr f) st) := by
  induction l generalizing st with
  | nil => exact h
  | cons x xs ih => exact ih _ (pairInv_inner decls ovr f x a b hab st h)

/-- One outer overload step preserves the pair invariant. -/
theorem pairInv_outer (decls : Nat → FunctionDefinition) (ovr fns : List Nat)
    (f a b : Nat) (hab : a ≠ b) (st : OvlState) (h : PairInv a b st) :
    PairInv a b (overloadOuter decls ovr fns st f) := by
  unfold overloadOuter
  split_ifs
  · exact h
  · exact h
  · exact pairInv_inner_fold decls ovr f a b hab fns st h

/-- The outer overload fold preserves the pair invariant. -/
theorem pairInv_outer_fold (decls : Nat → FunctionDefinition) (ovr fns : List Nat)
    (l : List Nat) (a b : Nat) (hab : a ≠ b) (st : OvlState) (h : PairInv a b st) :
    PairInv a b (l.foldl (overloadOuter decls ovr fns) st) := by
  induction l generalizing st with
  | nil => exact h
  | cons x xs ih => exact ih _ (pairInv_outer decls ovr fns x a b hab st h)

/-- The whole overload phase satisfies the pair invariant. -/
theorem pairInv_phase (decls : Nat → FunctionDefinition) (ovr fns : List Nat)
    (a b : Nat) (hab : a ≠ b) : PairInv a b (overloadPhase decls ovr fns) := by
  unfold overloadPhase
  apply pairInv_outer_fold decls ovr fns fns a b hab
  constructor
  · simp
  · simp [pairDiagCount]

/-- The `used` set only grows along one inner overload step. -/
theorem overloadInner_used_mono (decls : Nat → FunctionDefinition) (ovr : List Nat)
    (f : Nat) (st : OvlState) (ff : Nat) (p : Nat × Nat) (h : p ∈ st.used) :
    p ∈ (overloadInner decls ovr f st ff).used := by
  unfold overloadInner
  split_ifs <;> simp [List.mem_append, h]

/-- The `used` set only grows along the inner overload fold. -/
theorem overloadInner_fold_used_mono (decls : Nat → FunctionDefinition)
    (ovr : List Nat) (f : Nat) (l : List Nat) (st : OvlState) (p : Nat × Nat)
    (h : p ∈ st.used) : p ∈ (l.foldl (overloadInner decls ovr f) st).used := by
  induction l generalizing st with
  | nil => exact h
  | cons x xs ih => exact ih _ (overloadInner_used_mono decls ovr f st x p h)

/-- The `used` set only grows along one outer overload step. -/
theorem overloadOuter_used_mono (decls : Nat → FunctionDefinition)
    (ovr fns : List Nat) (st : OvlState) (f : Nat) (p : Nat × Nat)
    (h : p ∈ st.used) : p ∈ (overloadOuter decls ovr fns st f).used := by
  unfold overloadOuter
  split_ifs
  · exact h
  · exact h
  · exact overloadInner_fold_used_mono decls ovr f fns st p h

/-- The `used` set only grows along the outer overload fold. -/
theorem overloadOuter_fold_used_mono (decls : Nat → FunctionDefinition)
    (ovr fns : List Nat) (l : List Nat) (st : OvlState) (p : Nat × Nat)
    (h : p ∈ st.used) : p ∈ (l.foldl (overloadOuter decls ovr fns) st).used := by
  induction l generalizing st with
  | nil => exact h
  | cons x xs ih => exact ih _ (overloadOuter_used_mono decls ovr fns st x p h)

/-- Processing an eligible conflicting partner `b` in the inner loop for `a`
puts `(a, b)` into `used` (whether or not it was already there). -/
theorem overloadInner_hit (decls : Nat → FunctionDefinition) (ovr : List Nat)
    (a b : Nat) (st : OvlState) (hpb : (decls b).isPublic = true)
    (hob : ovr.contains b = false) (hab : a ≠ b)
    (hname : (decls a).name = (decls b).name) :
    (a, b) ∈ (overloadInner decls ovr a st b).used := by
  unfold overloadInner
  split_ifs with hc1 hc2 hc3 hc4
  · rw [hpb] at hc1
    simp at hc1
  · rw [hob] at hc2
    simp only [Bool.false_or, beq_iff_eq] at hc2
    exact absurd hc2 hab
  · simpa using hc4
  · simp [List.mem_append]
  · rw [hname] at hc3
    exact absurd (by simp) hc3

/-- For `b` anywhere in the inner iteration list, the inner fold for `a` puts
`(a, b)` into `used`. -/
theorem overloadInner_fold_hit (decls : Nat → FunctionDefinition) (ovr : List Nat)
    (a b : Nat) (l : List Nat) (st : OvlState) (hb : b ∈ l)
    (hpb : (decls b).isPublic = true) (hob : ovr.contains b = false) (hab : a ≠ b)
    (hname : (decls a).name = (decls b).name) :
    (a, b) ∈ (l.foldl (overloadInner decls ovr a) st).used := by
  obtain ⟨s, t, rfl⟩ := List.append_of_mem hb
  rw [List.foldl_append, List.foldl_cons]
  exact overloadInner_fold_used_mono decls ovr a t _ _
    (overloadInner_hit decls ovr a b _ hpb hob hab hname)

/-- After the whole overload phase, every eligible conflicting pair is in
`used`. -/
theorem overloadPhase_hit (decls : Nat → FunctionDefinition) (ovr fns : List Nat)
    (a b : Nat) (ha : a ∈ fns) (hb : b ∈ fns)
    (hpa : (decls a).isPublic = true) (hoa : ovr.contains a = false)
    (hpb : (decls b).isPublic = true) (hob : ovr.contains b = false)
    (hab : a ≠ b) (hname : (decls a).name = (decls b).name) :
    (a, b) ∈ (overloadPhase decls ovr fns).used := by
  unfold overloadPhase
  obtain ⟨s, t, hfns⟩ := List.append_of_mem ha
  rw [hfns, List.foldl_append, List.foldl_cons]
  apply overloadOuter_fold_used_mono
  unfold overloadOuter
  split_ifs with hc1 hc2
  · rw [hpa] at hc1
    simp at hc1
  · rw [hoa] at hc2
    simp at hc2
  · exact overloadInner_fold_hit decls ovr a b (s ++ a :: t) _ (hfns ▸ hb)
      hpb hob hab hname

/-- C4: after the hierarchy walk, for every unordered pair of distinct public
functions sharing a name, neither in the overridden-or-overriding set,
exactly one overloading diagnostic is produced — whatever the order of the
`functions` sequence. -/
theorem public_overload_exactly_once (decls : Nat → FunctionDefinition)
    (ovr fns : List Nat) (a b : Nat) (hab : a ≠ b) (ha : a ∈ fns) (hb : b ∈ fns)
    (hpa : (decls a).isPublic = true) (hpb : (decls b).isPublic = true)
    (hoa : ovr.contains a = false) (hob : ovr.contains b = false)
    (hname : (decls a).name = (decls b).name) :
    pairDiagCount a b (overloadPhase decls ovr fns).diags = 1 := by
  have hinv := pairInv_phase decls ovr fns a b hab
  have hmem := overloadPhase_hit decls ovr fns a b ha hb hpa hoa hpb hob hab hname
  rw [hinv.2, if_pos hmem]

/-- Witness for C4: two public functions both named "f", neither overridden,
yield exactly one overload diagnostic. -/
theorem public_overload_exactly_once_witness :
    pairDiagCount 0 1 (overloadPhase declsOverload [] [0, 1]).diags = 1 :=
  public_overload_exactly_once declsOverload [] [0, 1] 0 1 (by decide)
    (by decide) (by decide) rfl rfl rfl rfl rfl

end TVMChecker
